import Mathlib

/-!
Verification of the mood-backend resolution-and-caching layer
(source: src/api/index.js).

The JavaScript functions are shallowly embedded as pure Lean functions:
strings are Lean strings (JS `.trim()`, `.toLowerCase()` and
`encodeURIComponent` are modelled character-by-character over the ASCII
range the claims exercise), JS objects used as string-keyed dictionaries
become association lists, `Date.now()` becomes an explicit `now : Nat`
parameter, and the outcome of each external `fetch` becomes an explicit
argument describing what the network returned.
-/

namespace MoodBackend

/-! ### JS string primitives -/

/-- Whitespace as recognised by the JS `String.prototype.trim` (the
characters relevant here: space, tab, newline, carriage return, vertical
tab, form feed, NBSP, line/paragraph separator, BOM). -/
def isJsWhitespace (c : Char) : Bool :=
  decide (c = ' ' ∨ c = Char.ofNat 9 ∨ c = Char.ofNat 10 ∨ c = Char.ofNat 13 ∨
    c = Char.ofNat 11 ∨ c = Char.ofNat 12 ∨ c = Char.ofNat 160 ∨
    c = Char.ofNat 0x2028 ∨ c = Char.ofNat 0x2029 ∨ c = Char.ofNat 0xFEFF)

/-- JS `s.trim()`. -/
def jsTrim (s : String) : String :=
  ⟨((s.data.dropWhile isJsWhitespace).reverse.dropWhile isJsWhitespace).reverse⟩

/-- Lower-casing of one character; JS `toLowerCase` restricted to the
ASCII letters (the only case-carrying characters in the claims). -/
def asciiToLower (c : Char) : Char :=
  if 'A' ≤ c ∧ c ≤ 'Z' then Char.ofNat (c.toNat + 32) else c

/-- JS `s.toLowerCase()` over the ASCII range. -/
def jsToLower (s : String) : String :=
  ⟨s.data.map asciiToLower⟩

/-- JS `a || b` for two strings: the empty string is falsy. -/
def jsOrSS (a b : String) : String :=
  if a = "" then b else a

/-- JS `a || b` where `a` may be `null`: `null` and `""` are falsy. -/
def jsOrOS (a : Option String) (b : String) : String :=
  match a with
  | none => b
  | some s => if s = "" then b else s

/-- Truthiness of a JS value that is either a string or `null`. -/
def strTruthy : Option String → Bool
  | none => false
  | some s => decide (s ≠ "")

/-- JS `s.slice(0, n)` (claims use only characters in the basic plane,
where JS code units and characters coincide). -/
def jsSlice (s : String) (n : Nat) : String :=
  ⟨s.data.take n⟩

/-- UTF-8 bytes of one character, as natural numbers below 256. -/
def utf8Bytes (c : Char) : List Nat :=
  let n := c.toNat
  if n < 0x80 then [n]
  else if n < 0x800 then [0xC0 + n / 64, 0x80 + n % 64]
  else if n < 0x10000 then [0xE0 + n / 4096, 0x80 + (n / 64) % 64, 0x80 + n % 64]
  else [0xF0 + n / 262144, 0x80 + (n / 4096) % 64, 0x80 + (n / 64) % 64, 0x80 + n % 64]

/-- Upper-case hexadecimal digit, as produced by `encodeURIComponent`. -/
def hexDigit (n : Nat) : Char :=
  if n < 10 then Char.ofNat (48 + n) else Char.ofNat (55 + n)

/-- Percent-encoding of one byte. -/
def pctByte (n : Nat) : List Char :=
  [Char.ofNat 37, hexDigit (n / 16), hexDigit (n % 16)]

/-- The characters `encodeURIComponent` leaves untouched:
`A-Z a-z 0-9 - _ . ! ~ * ' ( )`. -/
def isUriUnreserved (c : Char) : Bool :=
  decide (('A' ≤ c ∧ c ≤ 'Z') ∨ ('a' ≤ c ∧ c ≤ 'z') ∨ ('0' ≤ c ∧ c ≤ '9') ∨
    c = '-' ∨ c = '_' ∨ c = '.' ∨ c = '!' ∨ c = '~' ∨ c = '*' ∨
    c = Char.ofNat 39 ∨ c = '(' ∨ c = ')')

/-- Encoding of one character under `encodeURIComponent`. -/
def encodeURIChar (c : Char) : List Char :=
  if isUriUnreserved c then [c] else (utf8Bytes c).flatMap pctByte

/-- JS `encodeURIComponent`. -/
def encodeURIComponent (s : String) : String :=
  ⟨s.data.flatMap encodeURIChar⟩

/-! ### Association-list model of a JS string-keyed dictionary

`posterCache`, `resolveCache` and `podcastCache` are all
`Object.create(null)` objects indexed by strings; an object holds at most
one value per key, property read is `alFind`, property assignment is
`alSet`, and the `delete` operator is `alErase`. -/

def alFind {α : Type} : List (String × α) → String → Option α
  | [], _ => none
  | (k', v) :: rest, k => if k' = k then some v else alFind rest k

def alSet {α : Type} : List (String × α) → String → α → List (String × α)
  | [], k, v => [(k, v)]
  | (k', v') :: rest, k, v =>
    if k' = k then (k, v) :: rest else (k', v') :: alSet rest k v

def alErase {α : Type} : List (String × α) → String → List (String × α)
  | [], _ => []
  | (k', v') :: rest, k =>
    if k' = k then alErase rest k else (k', v') :: alErase rest k

theorem alFind_alSet_self {α : Type} (c : List (String × α)) (k : String) (v : α) :
    alFind (alSet c k v) k = some v := by
  induction c with
  | nil => simp [alSet, alFind]
  | cons hd tl ih =>
    obtain ⟨k', v'⟩ := hd
    by_cases h : k' = k
    · simp [alSet, alFind, h]
    · simp [alSet, alFind, h, ih]

theorem alFind_alErase_self {α : Type} (c : List (String × α)) (k : String) :
    alFind (alErase c k) k = none := by
  induction c with
  | nil => simp [alErase, alFind]
  | cons hd tl ih =>
    obtain ⟨k', v'⟩ := hd
    by_cases h : k' = k
    · simp [alErase, h, ih]
    · simp [alErase, alFind, h, ih]

theorem mem_keys_alSet {α : Type} (c : List (String × α)) (k x : String) (v : α)
    (hx : x ∈ (alSet c k v).map Prod.fst) : x = k ∨ x ∈ c.map Prod.fst := by
  induction c with
  | nil => simpa [alSet] using hx
  | cons hd tl ih =>
    obtain ⟨k', v'⟩ := hd
    by_cases h : k' = k
    · simp [alSet, h] at hx
      rcases hx with hx | hx
      · exact Or.inl hx
      · exact Or.inr (by simp [hx])
    · simp [alSet, h] at hx
      rcases hx with hx | hx
      · exact Or.inr (by simp [hx])
      · rcases ih (by simpa using hx) with h1 | h1
        · exact Or.inl h1
        · exact Or.inr (by simp [h1])

theorem nodup_keys_alSet {α : Type} (c : List (String × α)) (k : String) (v : α)
    (hc : (c.map Prod.fst).Nodup) : ((alSet c k v).map Prod.fst).Nodup := by
  induction c with
  | nil => simp [alSet]
  | cons hd tl ih =>
    obtain ⟨k', v'⟩ := hd
    simp only [List.map_cons, List.nodup_cons] at hc
    by_cases h : k' = k
    · subst h
      simpa [alSet] using hc
    · simp only [alSet, h, if_false, List.map_cons, List.nodup_cons]
      refine ⟨fun hmem => ?_, ih hc.2⟩
      rcases mem_keys_alSet tl k k' v hmem with h1 | h1
      · exact h h1
      · exact hc.1 h1

theorem mem_keys_alErase {α : Type} (c : List (String × α)) (k x : String)
    (hx : x ∈ (alErase c k).map Prod.fst) : x ∈ c.map Prod.fst := by
  induction c with
  | nil => simp [alErase] at hx
  | cons hd tl ih =>
    obtain ⟨k', v'⟩ := hd
    by_cases h : k' = k
    · simp only [alErase, h, if_true] at hx
      exact List.mem_cons_of_mem _ (ih hx)
    · simp [alErase, h] at hx
      rcases hx with hx | hx
      · simp [hx]
      · exact List.mem_cons_of_mem _ (ih (by simpa using hx))

theorem nodup_keys_alErase {α : Type} (c : List (String × α)) (k : String)
    (hc : (c.map Prod.fst).Nodup) : ((alErase c k).map Prod.fst).Nodup := by
  induction c with
  | nil => simp [alErase]
  | cons hd tl ih =>
    obtain ⟨k', v'⟩ := hd
    simp only [List.map_cons, List.nodup_cons] at hc
    by_cases h : k' = k
    · simp only [alErase, h, if_true]
      exact ih hc.2
    · simp only [alErase, h, if_false, List.map_cons, List.nodup_cons]
      exact ⟨fun hmem => hc.1 (mem_keys_alErase tl k k' hmem), ih hc.2⟩

/-! ### Constants and the poster components (src/api/index.js, lines 40-67) -/

def POSTER_PLACEHOLDER : String :=
  "https://dummyimage.com/600x600/111/fff&text=No+Cover"

/-- `keyOf(title, artist)` (lines 49-53). Absent inputs (`undefined` or
`null`) and the empty string are both falsy, so `String(title || "")`
is `Option.getD "" `. -/
def keyOf (title artist : Option String) : String :=
  jsToLower (jsTrim (title.getD "")) ++ " - " ++ jsToLower (jsTrim (artist.getD ""))

/-- `toHiResArtwork(url100)` (lines 55-58): `null`/empty is returned as
`null`; otherwise the first occurrence of `/100x100bb.` is replaced. -/
def replaceFirstSeg (needle repl : List Char) : List Char → List Char
  | [] => []
  | c :: cs =>
    if needle.isPrefixOf (c :: cs) then repl ++ (c :: cs).drop needle.length
    else c :: replaceFirstSeg needle repl cs

def toHiResArtwork (url100 : Option String) : Option String :=
  match url100 with
  | none => none
  | some s =>
    if s = "" then none
    else some ⟨replaceFirstSeg "/100x100bb.".data "/600x600bb.".data s.data⟩

def POSTER_TEXT_BASE : String := "https://dummyimage.com/600x600/111/fff&text="

/-- `buildPlaceholderPoster(title, artist)` (lines 60-67). -/
def buildPlaceholderPoster (title artist : Option String) : String :=
  let text :=
    jsOrSS (jsTrim (jsTrim (title.getD "") ++ " " ++ jsTrim (artist.getD "")))
      "No Cover"
  ⟨POSTER_TEXT_BASE.data ++ (encodeURIComponent (jsSlice text 60)).data⟩

theorem buildPlaceholderPoster_ne_empty (title artist : Option String) :
    buildPlaceholderPoster title artist ≠ "" := by
  intro h
  have h2 := congrArg String.data h
  simp only [buildPlaceholderPoster] at h2
  rw [List.append_eq_nil] at h2
  exact absurd h2.1 (by decide)

/-! ### fetchItunesPoster (lines 69-119) -/

/-- What the single catalog `fetch` inside `fetchItunesPoster` did.
`netError` is a transport failure thrown by `fetch`, `timeout` the
abort fired by the 8-second timer, `badStatus` a response with
`r.ok` false, `badBody` an `r.json()` that throws on a malformed body
(the first, second and fourth all land in the `catch` block; the third
returns early), and `ok results` a parsed body whose `results` array is
as given (a missing or non-array `results` field is `ok []`). -/
inductive CatalogOutcome where
  | netError
  | timeout
  | badStatus
  | badBody
  | ok (results : List (Option String))
deriving DecidableEq

abbrev PosterCache := List (String × String)

/-- `fetchItunesPoster(title, artist)` (lines 69-119), with the poster
cache threaded explicitly and the network outcome as an argument; each
element of an `ok` outcome is the `artworkUrl100` field of one result
object (`null` when absent). Returns the poster URL and the updated
cache. -/
def fetchItunesPoster (title artist : Option String) (resp : CatalogOutcome)
    (cache : PosterCache) : String × PosterCache :=
  let k := keyOf title artist
  match alFind cache k with
  | some v => (v, cache)
  | none =>
    let term := jsTrim ((title.getD "") ++ " " ++ (artist.getD ""))
    if term = "" then
      let ph := buildPlaceholderPoster title artist
      (ph, alSet cache k ph)
    else
      match resp with
      | .netError | .timeout | .badBody =>
        let ph := jsOrSS (buildPlaceholderPoster title artist) POSTER_PLACEHOLDER
        (ph, alSet cache k ph)
      | .badStatus =>
        let ph := jsOrSS (buildPlaceholderPoster title artist) POSTER_PLACEHOLDER
        (ph, alSet cache k ph)
      | .ok results =>
        let artworkUrl100 : Option String :=
          match results.find? strTruthy with
          | some x => x
          | none => none
        let posterUrl := toHiResArtwork artworkUrl100
        let finalPoster :=
          jsOrSS (jsOrOS posterUrl (buildPlaceholderPoster title artist))
            POSTER_PLACEHOLDER
        (finalPoster, alSet cache k finalPoster)

/-! ### Resolve cache and video-ID extraction (lines 128-185) -/

def RESOLVE_CACHE_TTL_MS : Nat := 60 * 60 * 1000

structure ResolveEntry where
  youtubeUrl : Option String
  musicUrl : Option String
  expiresAt : Nat
deriving DecidableEq

structure VideoResolution where
  youtubeUrl : Option String
  musicUrl : Option String
deriving DecidableEq

abbrev ResolveCache := List (String × ResolveEntry)

/-- `getFromResolveCache(key)` (lines 132-141); `Date.now()` is the
explicit `now`, and the `delete` performed on an expired entry is
returned as the updated cache. -/
def getFromResolveCache (key : String) (now : Nat) (c : ResolveCache) :
    Option VideoResolution × ResolveCache :=
  if key = "" then (none, c)
  else
    match alFind c key with
    | none => (none, c)
    | some e =>
      if e.expiresAt ≤ now then (none, alErase c key)
      else (some ⟨e.youtubeUrl, e.musicUrl⟩, c)

/-- `setResolveCache(key, youtubeUrl, musicUrl)` (lines 143-150). -/
def setResolveCache (key : String) (youtubeUrl musicUrl : Option String)
    (now : Nat) (c : ResolveCache) : ResolveCache :=
  if key = "" then c
  else alSet c key ⟨youtubeUrl, musicUrl, now + RESOLVE_CACHE_TTL_MS⟩

/-- The character class `[a-zA-Z0-9_-]` of the video-ID pattern. -/
def isVideoIdChar (c : Char) : Bool :=
  decide (('a' ≤ c ∧ c ≤ 'z') ∨ ('A' ≤ c ∧ c ≤ 'Z') ∨ ('0' ≤ c ∧ c ≤ '9') ∨
    c = '_' ∨ c = '-')

/-- The literal marker of the pattern: `"videoId":"`. -/
def videoIdMarker : List Char := "\"videoId\":\"".data

/-- One attempt of the pattern `"videoId":"([a-zA-Z0-9_-]{11})"` at the
start of `cs`: the marker, exactly eleven class characters, then the
closing quote. -/
def matchVideoAt (cs : List Char) : Option (List Char) :=
  if videoIdMarker.isPrefixOf cs then
    let rest := cs.drop videoIdMarker.length
    let tok := rest.take 11
    if tok.length = 11 ∧ tok.all isVideoIdChar = true ∧
        (rest.drop 11).head? = some (Char.ofNat 34) then some tok
    else none
  else none

/-- The leftmost full match of the pattern, as produced by the first
iteration of the `re.exec` loop. -/
def scanVideoId : List Char → Option (List Char)
  | [] => none
  | c :: cs =>
    match matchVideoAt (c :: cs) with
    | some tok => some tok
    | none => scanVideoId cs

/-- `extractFirstVideoId(html)` (lines 176-185); a `null` page (failed
or non-success fetch) and the empty page are both falsy. The guard
`id.length === 11` of the loop body always holds for a captured group
of the pattern, so the first full match is returned. -/
def extractFirstVideoId (html : Option String) : Option String :=
  match html with
  | none => none
  | some h =>
    if h = "" then none
    else (scanVideoId h.data).map (fun tok => (⟨tok⟩ : String))

/-- Index of the first occurrence of `needle` in a character list
(`none` when it does not occur). -/
def findSeg (needle : List Char) : List Char → Option Nat
  | [] => if needle.isPrefixOf ([] : List Char) then some 0 else none
  | c :: cs =>
    if needle.isPrefixOf (c :: cs) then some 0
    else (findSeg needle cs).map (· + 1)

/-- Does `needle` occur anywhere in the list? -/
def hasSeg (needle : List Char) : List Char → Bool
  | [] => needle.isPrefixOf ([] : List Char)
  | c :: cs => needle.isPrefixOf (c :: cs) || hasSeg needle cs

/-- The eleven characters following the marker occurrence at index `p`. -/
def videoTokenAt (cs : List Char) (p : Nat) : List Char :=
  (cs.drop (p + videoIdMarker.length)).take 11

/-- The marker occurrence at index `p` is followed by an 11-character
video-ID token: eleven characters of the class `[a-zA-Z0-9_-]` closed
by a quote. -/
def videoTokenOkAt (cs : List Char) (p : Nat) : Prop :=
  (videoTokenAt cs p).length = 11 ∧ (videoTokenAt cs p).all isVideoIdChar = true ∧
    ((cs.drop (p + videoIdMarker.length)).drop 11).head? = some (Char.ofNat 34)

instance (cs : List Char) (p : Nat) : Decidable (videoTokenOkAt cs p) := by
  unfold videoTokenOkAt
  infer_instance

/-! ### POST /resolve/music-url (lines 418-458) -/

inductive MusicUrlResponse where
  | badRequest
  | ok (musicUrl youtubeUrl : Option String)
deriving DecidableEq

/-- The `/resolve/music-url` handler (lines 418-458), with the resolve
cache threaded explicitly. `ytBody`/`qBody` are the two body fields
(`none` when absent or not a string), `html` is what
`fetchYoutubeSearchHtml` returned (`none` on transport error, timeout
or non-success status), and `now` is `Date.now()`. The third component
records whether the handler performed the network fetch. -/
def resolveMusicUrlRoute (ytBody qBody html : Option String) (now : Nat)
    (c : ResolveCache) : MusicUrlResponse × ResolveCache × Bool :=
  let ytIn := jsTrim (ytBody.getD "")
  let qIn := jsTrim (qBody.getD "")
  if ytIn = "" ∧ qIn = "" then (.badRequest, c, false)
  else
    let cacheKey := jsOrSS qIn ytIn
    let g := getFromResolveCache cacheKey now c
    match g.1 with
    | some cached => (.ok cached.musicUrl cached.youtubeUrl, g.2, false)
    | none =>
      match extractFirstVideoId html with
      | none => (.ok none none, setResolveCache cacheKey none none now g.2, true)
      | some vid =>
        let youtubeUrl := "https://www.youtube.com/watch?v=" ++ vid
        let musicUrl := "https://music.youtube.com/watch?v=" ++ vid
        (.ok (some musicUrl) (some youtubeUrl),
          setResolveCache cacheKey (some youtubeUrl) (some musicUrl) now g.2, true)

/-! ### Podcast accumulation and dedup (lines 227, 281-318, 371-414) -/

def PODCAST_DEFAULT_LIMIT : Nat := 20

/-- One mapped result of `fetchItunesPodcastsByTerm` (lines 305-312):
every field is the JS value or `null`. -/
structure Podcast where
  collectionId : Option Int
  title : Option String
  author : Option String
  artworkUrl : Option String
  trackViewUrl : Option String
  feedUrl : Option String
deriving DecidableEq

/-- JS template interpolation of a string-or-null value: `null` prints
as the four characters `null`. -/
def jsTemplateOpt : Option String → String
  | none => "null"
  | some s => s

/-- The dedup identity `p.collectionId || ` followed by the template
string (line 398): a `null` or `0` collectionId is falsy, so identity
falls back to the `title-author` string. The two JS types (number and
string) never compare equal under `Set` membership. -/
inductive PodcastId where
  | byCollection (n : Int)
  | byPair (s : String)
deriving DecidableEq

def podcastIdOf (p : Podcast) : PodcastId :=
  match p.collectionId with
  | some n =>
    if n = 0 then .byPair (jsTemplateOpt p.title ++ "-" ++ jsTemplateOpt p.author)
    else .byCollection n
  | none => .byPair (jsTemplateOpt p.title ++ "-" ++ jsTemplateOpt p.author)

/-- Truthiness of the identity value, as tested by `!id` (line 399). -/
def idTruthy : PodcastId → Bool
  | .byCollection n => decide (n ≠ 0)
  | .byPair s => decide (s ≠ "")

/-- The usability filter `!p.title || !p.trackViewUrl` (line 402),
negated: keep entries whose title and trackViewUrl are both truthy. -/
def podcastUsable (p : Podcast) : Bool :=
  strTruthy p.title && strTruthy p.trackViewUrl

/-- The accumulation loop (lines 387-392): concatenate per-term chunks
in order, stopping once `2 * PODCAST_DEFAULT_LIMIT` results have been
gathered. -/
def accumulateChunks : List (List Podcast) → List Podcast → List Podcast
  | [], acc => acc
  | ch :: rest, acc =>
    let acc2 := acc ++ ch
    if PODCAST_DEFAULT_LIMIT * 2 ≤ acc2.length then acc2
    else accumulateChunks rest acc2

/-- The dedup-and-filter loop (lines 395-406): the identity is added to
`seen` before the usability filter runs; the loop stops once
`PODCAST_DEFAULT_LIMIT` entries have been kept. -/
def dedupLoop : List Podcast → List PodcastId → List Podcast → List Podcast
  | [], _, unique => unique
  | p :: rest, seen, unique =>
    let id := podcastIdOf p
    if idTruthy id = false ∨ id ∈ seen then dedupLoop rest seen unique
    else
      let seen2 := id :: seen
      if podcastUsable p = false then dedupLoop rest seen2 unique
      else
        let unique2 := unique ++ [p]
        if PODCAST_DEFAULT_LIMIT ≤ unique2.length then unique2
        else dedupLoop rest seen2 unique2

/-- The final list produced by `/mood/podcasts` on a podcast-cache miss,
as a function of the per-term catalog results. -/
def podcastFinalList (chunks : List (List Podcast)) : List Podcast :=
  dedupLoop (accumulateChunks chunks []) [] []

/-- A usable concrete podcast result, for the example scenarios of the
dedup and usability properties. -/
def examplePod (n : Int) (t a : String) : Podcast :=
  ⟨some n, some t, some a, none, some "https://podcasts.apple.com/show", none⟩

/-- A concrete podcast result with a unique collectionId but a `null`
title (unusable). -/
def examplePodNoTitle : Podcast :=
  ⟨some 7, none, some "X", none, some "https://podcasts.apple.com/show", none⟩

/-! ### Supporting lemmas for the poster resolver -/

theorem jsOrSS_of_ne (a b : String) (h : a ≠ "") : jsOrSS a b = a :=
  if_neg h

theorem mk_ne_empty (l : List Char) (h : l ≠ []) : (⟨l⟩ : String) ≠ "" := by
  intro heq
  exact h (congrArg String.data heq)

/-- Every branch of `fetchItunesPoster` leaves the returned value stored
in the poster cache under the normalized key. -/
theorem fetchItunesPoster_stores (title artist : Option String)
    (resp : CatalogOutcome) (cache : PosterCache) :
    alFind (fetchItunesPoster title artist resp cache).2 (keyOf title artist) =
      some (fetchItunesPoster title artist resp cache).1 := by
  cases hfind : alFind cache (keyOf title artist) with
  | some v => simp [fetchItunesPoster, hfind]
  | none =>
    by_cases hterm : jsTrim ((title.getD "") ++ " " ++ (artist.getD "")) = ""
    · simp [fetchItunesPoster, hfind, hterm, alFind_alSet_self]
    · cases resp <;> simp [fetchItunesPoster, hfind, hterm, alFind_alSet_self]

/-- C1. Whenever the catalog search actually ran (non-empty search term,
cache miss) and ended in a transport failure, a timeout, a non-success
status or a malformed body, `fetchItunesPoster` returns the placeholder
URL built from the trimmed title+artist text (truncated to 60
characters, percent-encoded) and stores that fallback in the poster
cache under the normalized key. -/
theorem poster_failure_fallback (title artist : Option String)
    (resp : CatalogOutcome) (cache : PosterCache)
    (hmiss : alFind cache (keyOf title artist) = none)
    (hterm : jsTrim ((title.getD "") ++ " " ++ (artist.getD "")) ≠ "")
    (hfail : resp = CatalogOutcome.netError ∨ resp = CatalogOutcome.timeout ∨
      resp = CatalogOutcome.badStatus ∨ resp = CatalogOutcome.badBody) :
    (fetchItunesPoster title artist resp cache).1 =
      buildPlaceholderPoster title artist ∧
    alFind (fetchItunesPoster title artist resp cache).2 (keyOf title artist) =
      some (buildPlaceholderPoster title artist) := by
  have hne := buildPlaceholderPoster_ne_empty title artist
  rcases hfail with h | h | h | h <;> subst h <;>
    simp [fetchItunesPoster, hmiss, hterm, jsOrSS_of_ne _ _ hne, alFind_alSet_self]

theorem poster_failure_fallback_witness :
    (fetchItunesPoster (some "Imagine") (some "Dragons") CatalogOutcome.timeout []).1 =
      buildPlaceholderPoster (some "Imagine") (some "Dragons") ∧
    alFind (fetchItunesPoster (some "Imagine") (some "Dragons")
        CatalogOutcome.timeout []).2 (keyOf (some "Imagine") (some "Dragons")) =
      some (buildPlaceholderPoster (some "Imagine") (some "Dragons")) :=
  poster_failure_fallback (some "Imagine") (some "Dragons") CatalogOutcome.timeout []
    (by decide) (by decide) (Or.inr (Or.inl rfl))

/-- C2, counterexample. `fetchItunesPoster("", "")` returns the
placeholder built from the default text `No Cover`, whose space is
percent-encoded by `encodeURIComponent` as `%20`: the returned URL does
not contain the substring `No+Cover` and is not the generic placeholder
constant. -/
theorem poster_empty_counterexample :
    hasSeg "No+Cover".data
        ((fetchItunesPoster (some "") (some "") CatalogOutcome.netError []).1).data
      = false ∧
    (fetchItunesPoster (some "") (some "") CatalogOutcome.netError []).1 ≠
      POSTER_PLACEHOLDER := by
  decide

/-- C2, amended. `fetchItunesPoster("", "")` returns a URL containing
the substring `No%20Cover` (the text `No Cover` percent-encoded) and
stores that value in the poster cache under the normalized key. -/
theorem poster_empty_placeholder (resp : CatalogOutcome) (cache : PosterCache)
    (hmiss : alFind cache (keyOf (some "") (some "")) = none) :
    hasSeg "No%20Cover".data
        ((fetchItunesPoster (some "") (some "") resp cache).1).data = true ∧
    alFind (fetchItunesPoster (some "") (some "") resp cache).2
        (keyOf (some "") (some "")) =
      some ((fetchItunesPoster (some "") (some "") resp cache).1) := by
  refine ⟨?_, fetchItunesPoster_stores (some "") (some "") resp cache⟩
  have h1 : (fetchItunesPoster (some "") (some "") resp cache).1 =
      buildPlaceholderPoster (some "") (some "") := by
    simp [fetchItunesPoster, hmiss]
    rw [if_pos (show jsTrim " " = "" by decide)]
  rw [h1]
  decide

theorem poster_empty_placeholder_witness :
    hasSeg "No%20Cover".data
        ((fetchItunesPoster (some "") (some "") CatalogOutcome.badStatus []).1).data = true ∧
    alFind (fetchItunesPoster (some "") (some "") CatalogOutcome.badStatus []).2
        (keyOf (some "") (some "")) =
      some ((fetchItunesPoster (some "") (some "") CatalogOutcome.badStatus []).1) :=
  poster_empty_placeholder CatalogOutcome.badStatus [] (by decide)

/-- C8. The key normalizer equals
`lower(trim(title)) ++ " - " ++ lower(trim(artist))` with missing inputs
as the empty string; pairs equal after trimming and lowercasing produce
identical keys; and in particular the calls for `("Imagine", "John
Lennon")` and `("  imagine ", "JOHN LENNON")` address the same
poster-cache entry, the second returning the value cached by the
first. -/
theorem keyOf_normalization :
    (∀ t a : Option String,
      keyOf t a =
        jsToLower (jsTrim (t.getD "")) ++ " - " ++ jsToLower (jsTrim (a.getD ""))) ∧
    (∀ t a t2 a2 : Option String,
      jsToLower (jsTrim (t.getD "")) = jsToLower (jsTrim (t2.getD "")) →
      jsToLower (jsTrim (a.getD "")) = jsToLower (jsTrim (a2.getD "")) →
      keyOf t a = keyOf t2 a2) ∧
    keyOf (some "Imagine") (some "John Lennon") =
      keyOf (some "  imagine ") (some "JOHN LENNON") ∧
    (∀ (resp resp2 : CatalogOutcome) (cache : PosterCache),
      (fetchItunesPoster (some "  imagine ") (some "JOHN LENNON") resp2
          (fetchItunesPoster (some "Imagine") (some "John Lennon") resp cache).2).1 =
        (fetchItunesPoster (some "Imagine") (some "John Lennon") resp cache).1) := by
  refine ⟨fun t a => rfl, ?_, by decide, ?_⟩
  · intro t a t2 a2 h1 h2
    simp only [keyOf, h1, h2]
  · intro resp resp2 cache
    have hs := fetchItunesPoster_stores (some "Imagine") (some "John Lennon") resp cache
    rcases hout : fetchItunesPoster (some "Imagine") (some "John Lennon") resp cache
      with ⟨r1, c1⟩
    rw [hout] at hs
    have hk : keyOf (some "  imagine ") (some "JOHN LENNON") =
        keyOf (some "Imagine") (some "John Lennon") := by decide
    simp only at hs ⊢
    simp [fetchItunesPoster, hk, hs]

theorem keyOf_normalization_witness :
    keyOf (some "Imagine") (some "John Lennon") =
      keyOf (some "  imagine ") (some "JOHN LENNON") :=
  (keyOf_normalization.2.1) (some "Imagine") (some "John Lennon")
    (some "  imagine ") (some "JOHN LENNON") (by decide) (by decide)

/-! ### The hi-res artwork rewrite -/

theorem replaceFirstSeg_at (needle repl post : List Char) (hne : needle ≠ []) :
    ∀ pre : List Char, findSeg needle (pre ++ (needle ++ post)) = some pre.length →
      replaceFirstSeg needle repl (pre ++ (needle ++ post)) = pre ++ (repl ++ post) := by
  intro pre
  induction pre with
  | nil =>
    intro _
    cases hn : needle with
    | nil => exact absurd hn hne
    | cons c cs =>
      subst hn
      have hpre : (c :: cs).isPrefixOf ((c :: cs) ++ post) = true := by
        rw [List.isPrefixOf_iff_prefix]
        exact List.prefix_append _ _
      have hsplit : (c :: cs) ++ post = c :: (cs ++ post) := by simp
      rw [List.nil_append, hsplit, replaceFirstSeg, ← hsplit, if_pos hpre,
        List.drop_left, List.nil_append]
  | cons d pre2 ih =>
    intro h
    have hlist : (d :: pre2) ++ (needle ++ post) = d :: (pre2 ++ (needle ++ post)) := by
      simp
    rw [hlist] at h ⊢
    by_cases hp : needle.isPrefixOf (d :: (pre2 ++ (needle ++ post))) = true
    · rw [findSeg, if_pos hp] at h
      simp at h
    · rw [findSeg, if_neg hp] at h
      rw [Option.map_eq_some'] at h
      obtain ⟨m, hm, hval⟩ := h
      have hmlen : m = pre2.length := by
        simpa [List.length_cons] using hval
      rw [replaceFirstSeg, if_neg hp, ih (hmlen ▸ hm)]
      simp

/-- On a successful catalog response whose single candidate carries a
non-empty artwork URL, the resolver returns the hi-res rewrite of that
URL. -/
theorem fetchItunesPoster_ok_first (title artist : Option String)
    (cache : PosterCache) (u v : String) (hu : u ≠ "") (hv : v ≠ "")
    (hmiss : alFind cache (keyOf title artist) = none)
    (hterm : jsTrim ((title.getD "") ++ " " ++ (artist.getD "")) ≠ "")
    (hhi : toHiResArtwork (some u) = some v) :
    (fetchItunesPoster title artist (CatalogOutcome.ok [some u]) cache).1 = v := by
  have htr : strTruthy (some u) = true := by
    simp only [strTruthy, decide_eq_true_eq]
    exact hu
  simp only [fetchItunesPoster, hmiss]
  rw [if_neg hterm]
  simp only [List.find?, htr, hhi, jsOrOS]
  rw [if_neg hv]
  exact jsOrSS_of_ne _ _ hv

/-- C9. For every artwork URL whose first occurrence of the size token
`/100x100bb.` sits after a prefix `pre`, `toHiResArtwork` returns the
same URL with that token replaced by `/600x600bb.` and every other
character unchanged; and on a successful catalog response whose first
candidate carries such a URL, `fetchItunesPoster` returns exactly the
rewritten URL. -/
theorem hi_res_rewrite :
    (∀ pre post : List Char,
      findSeg "/100x100bb.".data (pre ++ ("/100x100bb.".data ++ post)) =
        some pre.length →
      toHiResArtwork (some ⟨pre ++ ("/100x100bb.".data ++ post)⟩) =
        some ⟨pre ++ ("/600x600bb.".data ++ post)⟩) ∧
    (∀ (title artist : Option String) (cache : PosterCache) (pre post : List Char),
      alFind cache (keyOf title artist) = none →
      jsTrim ((title.getD "") ++ " " ++ (artist.getD "")) ≠ "" →
      findSeg "/100x100bb.".data (pre ++ ("/100x100bb.".data ++ post)) =
        some pre.length →
      (fetchItunesPoster title artist
          (CatalogOutcome.ok [some ⟨pre ++ ("/100x100bb.".data ++ post)⟩]) cache).1 =
        (⟨pre ++ ("/600x600bb.".data ++ post)⟩ : String)) := by
  have hrw : ∀ pre post : List Char,
      findSeg "/100x100bb.".data (pre ++ ("/100x100bb.".data ++ post)) =
        some pre.length →
      toHiResArtwork (some ⟨pre ++ ("/100x100bb.".data ++ post)⟩) =
        some ⟨pre ++ ("/600x600bb.".data ++ post)⟩ := by
    intro pre post h
    have hnn : pre ++ ("/100x100bb.".data ++ post) ≠ [] := by
      simp
    rw [toHiResArtwork]
    rw [if_neg (mk_ne_empty _ hnn)]
    rw [replaceFirstSeg_at "/100x100bb.".data "/600x600bb.".data post (by decide) pre h]
  refine ⟨hrw, ?_⟩
  intro title artist cache pre post hmiss hterm h
  exact fetchItunesPoster_ok_first title artist cache _ _
    (mk_ne_empty _ (by simp)) (mk_ne_empty _ (by simp)) hmiss hterm (hrw pre post h)

theorem hi_res_rewrite_witness :
    toHiResArtwork
        (some ⟨"https://is1-ssl.mzstatic.com/image/thumb/abc".data ++
          ("/100x100bb.".data ++ "jpg".data)⟩) =
      some ⟨"https://is1-ssl.mzstatic.com/image/thumb/abc".data ++
        ("/600x600bb.".data ++ "jpg".data)⟩ :=
  hi_res_rewrite.1 "https://is1-ssl.mzstatic.com/image/thumb/abc".data "jpg".data
    (by decide)

/-! ### Video-ID scanning -/

/-- When the first marker occurrence (at index `p`) is followed by a
well-formed token, the leftmost-match scan returns exactly that
token. -/
theorem scanVideoId_first (cs : List Char) :
    ∀ p : Nat, findSeg videoIdMarker cs = some p → videoTokenOkAt cs p →
      scanVideoId cs = some (videoTokenAt cs p) := by
  induction cs with
  | nil =>
    intro p hfind _
    rw [findSeg, if_neg (show ¬videoIdMarker.isPrefixOf ([] : List Char) = true
      from by decide)] at hfind
    exact Option.noConfusion hfind
  | cons c cs ih =>
    intro p hfind htok
    cases hp : videoIdMarker.isPrefixOf (c :: cs) with
    | true =>
      rw [findSeg, if_pos hp] at hfind
      have hp0 : p = 0 := by
        cases hfind
        rfl
      subst hp0
      obtain ⟨h1, h2, h3⟩ := htok
      rw [videoTokenAt, Nat.zero_add] at h1 h2
      rw [Nat.zero_add] at h3
      rw [scanVideoId, matchVideoAt, if_pos hp, if_pos ⟨h1, h2, h3⟩]
      rw [videoTokenAt, Nat.zero_add]
    | false =>
      rw [findSeg, if_neg (by simp [hp])] at hfind
      rw [Option.map_eq_some'] at hfind
      obtain ⟨p2, hp2, hval⟩ := hfind
      subst hval
      have hdrop : ∀ n : Nat, (c :: cs).drop (p2 + 1 + n) = cs.drop (p2 + n) := by
        intro n
        have : p2 + 1 + n = (p2 + n) + 1 := by omega
        rw [this, List.drop_succ_cons]
      have htok2 : videoTokenOkAt cs p2 := by
        obtain ⟨h1, h2, h3⟩ := htok
        rw [videoTokenAt, hdrop] at h1 h2
        rw [hdrop] at h3
        exact ⟨h1, h2, h3⟩
      have hmatch : matchVideoAt (c :: cs) = none := by
        rw [matchVideoAt, if_neg (by simp [hp])]
      rw [scanVideoId, hmatch, ih p2 hp2 htok2, videoTokenAt, videoTokenAt, hdrop]

/-- C3. When the first occurrence of the marker in the fetched page is
followed by an 11-character token of letters, digits, hyphens or
underscores (closed by a quote, as the pattern requires), the handler
extracts that first token and returns the two fixed URL templates with
the identifier substituted. -/
theorem video_resolution_determinism (ytBody qBody : Option String) (h : String)
    (p : Nat) (now : Nat) (c : ResolveCache)
    (hvalid : ¬(jsTrim (ytBody.getD "") = "" ∧ jsTrim (qBody.getD "") = ""))
    (hmiss : (getFromResolveCache
      (jsOrSS (jsTrim (qBody.getD "")) (jsTrim (ytBody.getD ""))) now c).1 = none)
    (hfind : findSeg videoIdMarker h.data = some p)
    (htok : videoTokenOkAt h.data p) :
    (resolveMusicUrlRoute ytBody qBody (some h) now c).1 =
      MusicUrlResponse.ok
        (some ("https://music.youtube.com/watch?v=" ++ (⟨videoTokenAt h.data p⟩ : String)))
        (some ("https://www.youtube.com/watch?v=" ++ (⟨videoTokenAt h.data p⟩ : String))) := by
  have hne : h ≠ "" := by
    intro he
    rw [he] at hfind
    rw [show findSeg videoIdMarker "".data = none from by decide] at hfind
    exact Option.noConfusion hfind
  have hex : extractFirstVideoId (some h) = some ⟨videoTokenAt h.data p⟩ := by
    rw [extractFirstVideoId, if_neg hne, scanVideoId_first h.data p hfind htok]
    rfl
  simp only [resolveMusicUrlRoute]
  rw [if_neg hvalid]
  simp only [hmiss, hex]

theorem video_resolution_determinism_witness :
    (resolveMusicUrlRoute none (some "rick astley")
        (some "var x = [\"videoId\":\"dQw4w9WgXcQ\"]") 0 []).1 =
      MusicUrlResponse.ok
        (some "https://music.youtube.com/watch?v=dQw4w9WgXcQ")
        (some "https://www.youtube.com/watch?v=dQw4w9WgXcQ") :=
  video_resolution_determinism none (some "rick astley")
    "var x = [\"videoId\":\"dQw4w9WgXcQ\"]" 9 0 []
    (by decide) (by decide) (by decide) (by decide)

/-- C4. When the handler must fetch (valid input, cache miss) and no
video identifier is found (failed fetch or page without a matching
token), it responds with both URLs null, stores the negative entry with
the 1-hour expiry under the cache key, and a second resolution of the
same inputs within that hour answers from the cache with the same
nulls and performs no fetch. -/
theorem negative_caching (ytBody qBody html html2 : Option String)
    (now now2 : Nat) (c : ResolveCache)
    (hvalid : ¬(jsTrim (ytBody.getD "") = "" ∧ jsTrim (qBody.getD "") = ""))
    (hmiss : (getFromResolveCache
      (jsOrSS (jsTrim (qBody.getD "")) (jsTrim (ytBody.getD ""))) now c).1 = none)
    (hext : extractFirstVideoId html = none)
    (h2 : now2 < now + RESOLVE_CACHE_TTL_MS) :
    (resolveMusicUrlRoute ytBody qBody html now c).1 = MusicUrlResponse.ok none none ∧
    (resolveMusicUrlRoute ytBody qBody html now c).2.2 = true ∧
    alFind (resolveMusicUrlRoute ytBody qBody html now c).2.1
        (jsOrSS (jsTrim (qBody.getD "")) (jsTrim (ytBody.getD ""))) =
      some ⟨none, none, now + RESOLVE_CACHE_TTL_MS⟩ ∧
    (resolveMusicUrlRoute ytBody qBody html2 now2
        (resolveMusicUrlRoute ytBody qBody html now c).2.1).1 =
      MusicUrlResponse.ok none none ∧
    (resolveMusicUrlRoute ytBody qBody html2 now2
        (resolveMusicUrlRoute ytBody qBody html now c).2.1).2.2 = false := by
  have hkey : jsOrSS (jsTrim (qBody.getD "")) (jsTrim (ytBody.getD "")) ≠ "" := by
    intro hk
    by_cases hq : jsTrim (qBody.getD "") = ""
    · rw [jsOrSS, if_pos hq] at hk
      exact hvalid ⟨hk, hq⟩
    · rw [jsOrSS, if_neg hq] at hk
      exact hq hk
  have hr1 : resolveMusicUrlRoute ytBody qBody html now c =
      (MusicUrlResponse.ok none none,
        alSet (getFromResolveCache
            (jsOrSS (jsTrim (qBody.getD "")) (jsTrim (ytBody.getD ""))) now c).2
          (jsOrSS (jsTrim (qBody.getD "")) (jsTrim (ytBody.getD "")))
          ⟨none, none, now + RESOLVE_CACHE_TTL_MS⟩, true) := by
    simp only [resolveMusicUrlRoute]
    rw [if_neg hvalid]
    simp only [hmiss, hext, setResolveCache]
    rw [if_neg hkey]
  have hstored := alFind_alSet_self
    (getFromResolveCache (jsOrSS (jsTrim (qBody.getD "")) (jsTrim (ytBody.getD ""))) now c).2
    (jsOrSS (jsTrim (qBody.getD "")) (jsTrim (ytBody.getD "")))
    (⟨none, none, now + RESOLVE_CACHE_TTL_MS⟩ : ResolveEntry)
  have hg2 : getFromResolveCache
      (jsOrSS (jsTrim (qBody.getD "")) (jsTrim (ytBody.getD ""))) now2
      (resolveMusicUrlRoute ytBody qBody html now c).2.1 =
      (some ⟨none, none⟩, (resolveMusicUrlRoute ytBody qBody html now c).2.1) := by
    rw [hr1]
    rw [getFromResolveCache, if_neg hkey]
    simp only [hstored]
    rw [if_neg (Nat.not_le_of_lt h2)]
  have hr2 : resolveMusicUrlRoute ytBody qBody html2 now2
      (resolveMusicUrlRoute ytBody qBody html now c).2.1 =
      (MusicUrlResponse.ok none none,
        (resolveMusicUrlRoute ytBody qBody html now c).2.1, false) := by
    conv_lhs => rw [resolveMusicUrlRoute]
    rw [if_neg hvalid]
    simp only [hg2]
  refine ⟨?_, ?_, ?_, ?_, ?_⟩
  · rw [hr1]
  · rw [hr1]
  · rw [hr1]
    exact hstored
  · rw [hr2]
  · rw [hr2]

theorem negative_caching_witness :
    (resolveMusicUrlRoute none (some "lofi beats") none 0 []).1 =
      MusicUrlResponse.ok none none ∧
    (resolveMusicUrlRoute none (some "lofi beats") none 0 []).2.2 = true ∧
    alFind (resolveMusicUrlRoute none (some "lofi beats") none 0 []).2.1
        (jsOrSS (jsTrim ((none : Option String).getD ""))
          (jsTrim ((some "lofi beats" : Option String).getD ""))) =
      some ⟨none, none, 0 + RESOLVE_CACHE_TTL_MS⟩ ∧
    (resolveMusicUrlRoute none (some "lofi beats") none 600000
        (resolveMusicUrlRoute none (some "lofi beats") none 0 []).2.1).1 =
      MusicUrlResponse.ok none none ∧
    (resolveMusicUrlRoute none (some "lofi beats") none 600000
        (resolveMusicUrlRoute none (some "lofi beats") none 0 []).2.1).2.2 = false :=
  negative_caching none (some "lofi beats") none none 0 600000 []
    (by decide) (by decide) rfl (by decide)

/-- C5. A read of a resolve-cache entry at or past its expiry timestamp
removes the entry and reports a miss; a read strictly before the expiry
returns the stored pair; and both reading and writing preserve the
at-most-one-entry-per-key invariant. -/
theorem resolve_cache_expiry (c : ResolveCache) (key : String) (now : Nat)
    (e : ResolveEntry) (hkey : key ≠ "") (hfind : alFind c key = some e) :
    (e.expiresAt ≤ now →
      getFromResolveCache key now c = (none, alErase c key) ∧
      alFind (alErase c key) key = none) ∧
    (now < e.expiresAt →
      getFromResolveCache key now c = (some ⟨e.youtubeUrl, e.musicUrl⟩, c)) ∧
    ((c.map Prod.fst).Nodup →
      (((getFromResolveCache key now c).2).map Prod.fst).Nodup ∧
      ∀ yt mu : Option String,
        ((setResolveCache key yt mu now c).map Prod.fst).Nodup) := by
  refine ⟨?_, ?_, ?_⟩
  · intro hexp
    rw [getFromResolveCache, if_neg hkey]
    simp only [hfind]
    rw [if_pos hexp]
    exact ⟨rfl, alFind_alErase_self c key⟩
  · intro hlive
    rw [getFromResolveCache, if_neg hkey]
    simp only [hfind]
    rw [if_neg (Nat.not_le_of_lt hlive)]
  · intro hnd
    constructor
    · rw [getFromResolveCache, if_neg hkey]
      simp only [hfind]
      by_cases hexp : e.expiresAt ≤ now
      · rw [if_pos hexp]
        exact nodup_keys_alErase c key hnd
      · rw [if_neg hexp]
        exact hnd
    · intro yt mu
      rw [setResolveCache, if_neg hkey]
      exact nodup_keys_alSet c key _ hnd

theorem resolve_cache_expiry_witness :
    getFromResolveCache "k" 5 [("k", (⟨none, none, 5⟩ : ResolveEntry))] =
      (none, alErase [("k", (⟨none, none, 5⟩ : ResolveEntry))] "k") ∧
    alFind (alErase [("k", (⟨none, none, 5⟩ : ResolveEntry))] "k") "k" = none :=
  (resolve_cache_expiry [("k", ⟨none, none, 5⟩)] "k" 5 ⟨none, none, 5⟩
    (by decide) rfl).1 (by decide)

/-! ### The podcast dedup loop -/

/-- The dedup identity is always truthy: a `byCollection` id is a
non-zero number and a `byPair` id always contains the joining hyphen. -/
theorem idTruthy_podcastIdOf (p : Podcast) : idTruthy (podcastIdOf p) = true := by
  have hpair : ∀ t a : Option String,
      idTruthy (PodcastId.byPair (jsTemplateOpt t ++ "-" ++ jsTemplateOpt a)) = true := by
    intro t a
    simp only [idTruthy, decide_eq_true_eq]
    intro h
    have h2 := congrArg String.data h
    rw [String.data_append, String.data_append] at h2
    simp [List.append_eq_nil] at h2
  cases hc : p.collectionId with
  | none =>
    rw [podcastIdOf, hc]
    exact hpair _ _
  | some n =>
    rw [podcastIdOf, hc]
    show idTruthy (if n = 0 then
      PodcastId.byPair (jsTemplateOpt p.title ++ "-" ++ jsTemplateOpt p.author)
      else PodcastId.byCollection n) = true
    by_cases hn : n = 0
    · rw [if_pos hn]
      exact hpair _ _
    · rw [if_neg hn]
      simp [idTruthy, hn]

theorem dedupLoop_length : ∀ (all : List Podcast) (seen : List PodcastId)
    (unique : List Podcast), unique.length < PODCAST_DEFAULT_LIMIT →
    (dedupLoop all seen unique).length ≤ PODCAST_DEFAULT_LIMIT := by
  intro all
  induction all with
  | nil =>
    intro seen unique h
    rw [dedupLoop]
    omega
  | cons p rest ih =>
    intro seen unique h
    simp only [dedupLoop]
    by_cases hc1 : idTruthy (podcastIdOf p) = false ∨ podcastIdOf p ∈ seen
    · rw [if_pos hc1]
      exact ih _ _ h
    · rw [if_neg hc1]
      by_cases hc2 : podcastUsable p = false
      · rw [if_pos hc2]
        exact ih _ _ h
      · rw [if_neg hc2]
        by_cases hc3 : PODCAST_DEFAULT_LIMIT ≤ (unique ++ [p]).length
        · rw [if_pos hc3]
          simp only [List.length_append, List.length_cons, List.length_nil]
          omega
        · rw [if_neg hc3]
          apply ih
          simp only [List.length_append, List.length_cons, List.length_nil] at hc3 ⊢
          omega

theorem dedupLoop_countP (i : PodcastId) : ∀ (all : List Podcast)
    (seen : List PodcastId) (unique : List Podcast),
    unique.countP (fun q => decide (podcastIdOf q = i)) ≤ 1 →
    (i ∉ seen → unique.countP (fun q => decide (podcastIdOf q = i)) = 0) →
    (dedupLoop all seen unique).countP (fun q => decide (podcastIdOf q = i)) ≤ 1 := by
  intro all
  induction all with
  | nil =>
    intro seen unique h1 _
    rw [dedupLoop]
    exact h1
  | cons p rest ih =>
    intro seen unique h1 h2
    simp only [dedupLoop]
    by_cases hc1 : idTruthy (podcastIdOf p) = false ∨ podcastIdOf p ∈ seen
    · rw [if_pos hc1]
      exact ih seen unique h1 h2
    · rw [if_neg hc1]
      push_neg at hc1
      by_cases hc2 : podcastUsable p = false
      · rw [if_pos hc2]
        refine ih _ unique h1 fun hi => h2 fun hmem => hi (List.mem_cons_of_mem _ hmem)
      · rw [if_neg hc2]
        have hcount : (unique ++ [p]).countP (fun q => decide (podcastIdOf q = i)) ≤ 1 := by
          rw [List.countP_append]
          by_cases hpi : podcastIdOf p = i
          · rw [h2 (hpi ▸ hc1.2)]
            simp [List.countP_cons, hpi]
          · simp [List.countP_cons, hpi]
            omega
        by_cases hc3 : PODCAST_DEFAULT_LIMIT ≤ (unique ++ [p]).length
        · rw [if_pos hc3]
          exact hcount
        · rw [if_neg hc3]
          refine ih _ _ hcount fun hi => ?_
          have hne : podcastIdOf p ≠ i := fun he => hi (he ▸ List.mem_cons_self _ _)
          rw [List.countP_append, h2 fun hmem => hi (List.mem_cons_of_mem _ hmem)]
          simp [List.countP_cons, hne]

theorem dedupLoop_mem_usable : ∀ (all : List Podcast) (seen : List PodcastId)
    (unique : List Podcast), (∀ x ∈ unique, podcastUsable x = true) →
    ∀ x ∈ dedupLoop all seen unique, podcastUsable x = true := by
  intro all
  induction all with
  | nil =>
    intro seen unique h
    rw [dedupLoop]
    exact h
  | cons p rest ih =>
    intro seen unique h
    simp only [dedupLoop]
    by_cases hc1 : idTruthy (podcastIdOf p) = false ∨ podcastIdOf p ∈ seen
    · rw [if_pos hc1]
      exact ih seen unique h
    · rw [if_neg hc1]
      by_cases hc2 : podcastUsable p = false
      · rw [if_pos hc2]
        exact ih _ unique h
      · rw [if_neg hc2]
        have hp : podcastUsable p = true := by
          cases hv : podcastUsable p with
          | false => exact absurd hv hc2
          | true => rfl
        have hext : ∀ x ∈ unique ++ [p], podcastUsable x = true := by
          intro x hx
          rcases List.mem_append.mp hx with hx | hx
          · exact h x hx
          · rw [List.mem_singleton.mp hx]
            exact hp
        by_cases hc3 : PODCAST_DEFAULT_LIMIT ≤ (unique ++ [p]).length
        · rw [if_pos hc3]
          exact hext
        · rw [if_neg hc3]
          exact ih _ _ hext

/-- Once an identity is in `seen` and absent from the kept list, no
entry with that identity can ever enter the result. -/
theorem dedupLoop_id_blocked (i : PodcastId) : ∀ (all : List Podcast)
    (seen : List PodcastId) (unique : List Podcast), i ∈ seen →
    (∀ x ∈ unique, podcastIdOf x ≠ i) →
    ∀ x ∈ dedupLoop all seen unique, podcastIdOf x ≠ i := by
  intro all
  induction all with
  | nil =>
    intro seen unique _ h
    rw [dedupLoop]
    exact h
  | cons p rest ih =>
    intro seen unique hseen h
    simp only [dedupLoop]
    by_cases hc1 : idTruthy (podcastIdOf p) = false ∨ podcastIdOf p ∈ seen
    · rw [if_pos hc1]
      exact ih seen unique hseen h
    · rw [if_neg hc1]
      push_neg at hc1
      have hpne : podcastIdOf p ≠ i := fun he => hc1.2 (he ▸ hseen)
      by_cases hc2 : podcastUsable p = false
      · rw [if_pos hc2]
        exact ih _ unique (List.mem_cons_of_mem _ hseen) h
      · rw [if_neg hc2]
        have hext : ∀ x ∈ unique ++ [p], podcastIdOf x ≠ i := by
          intro x hx
          rcases List.mem_append.mp hx with hx | hx
          · exact h x hx
          · rw [List.mem_singleton.mp hx]
            exact hpne
        by_cases hc3 : PODCAST_DEFAULT_LIMIT ≤ (unique ++ [p]).length
        · rw [if_pos hc3]
          exact hext
        · rw [if_neg hc3]
          exact ih _ _ (List.mem_cons_of_mem _ hseen) hext

/-- When the first entry carrying identity `podcastIdOf p` is the
unusable `p` itself, no entry of that identity reaches the result. -/
theorem dedupLoop_unusable_first (p : Podcast) (tail : List Podcast)
    (hpu : podcastUsable p = false) : ∀ (pre : List Podcast)
    (seen : List PodcastId) (unique : List Podcast),
    (∀ r ∈ pre, podcastIdOf r ≠ podcastIdOf p) →
    (∀ x ∈ unique, podcastIdOf x ≠ podcastIdOf p) →
    ∀ x ∈ dedupLoop (pre ++ p :: tail) seen unique, podcastIdOf x ≠ podcastIdOf p := by
  intro pre
  induction pre with
  | nil =>
    intro seen unique _ hu
    rw [List.nil_append]
    by_cases hin : podcastIdOf p ∈ seen
    · exact dedupLoop_id_blocked (podcastIdOf p) (p :: tail) seen unique hin hu
    · simp only [dedupLoop]
      rw [if_neg (by simp [idTruthy_podcastIdOf p, hin])]
      rw [if_pos hpu]
      exact dedupLoop_id_blocked (podcastIdOf p) tail _ unique
        (List.mem_cons_self _ _) hu
  | cons r pre2 ih =>
    intro seen unique hpre hu
    have hr : podcastIdOf r ≠ podcastIdOf p := hpre r (List.mem_cons_self _ _)
    have hpre2 : ∀ s ∈ pre2, podcastIdOf s ≠ podcastIdOf p :=
      fun s hs => hpre s (List.mem_cons_of_mem _ hs)
    rw [List.cons_append]
    simp only [dedupLoop]
    by_cases hc1 : idTruthy (podcastIdOf r) = false ∨ podcastIdOf r ∈ seen
    · rw [if_pos hc1]
      exact ih seen unique hpre2 hu
    · rw [if_neg hc1]
      by_cases hc2 : podcastUsable r = false
      · rw [if_pos hc2]
        exact ih _ unique hpre2 hu
      · rw [if_neg hc2]
        have hext : ∀ x ∈ unique ++ [r], podcastIdOf x ≠ podcastIdOf p := by
          intro x hx
          rcases List.mem_append.mp hx with hx | hx
          · exact hu x hx
          · rw [List.mem_singleton.mp hx]
            exact hr
        by_cases hc3 : PODCAST_DEFAULT_LIMIT ≤ (unique ++ [r]).length
        · rw [if_pos hc3]
          exact hext
        · rw [if_neg hc3]
          exact ih _ _ hpre2 hext

/-- C6. The podcast dedup produces at most `PODCAST_DEFAULT_LIMIT` (20)
entries, each identity occurs at most once in the final list, and in
the concrete two-term scenario where both chunks contain an entry with
collectionId 42, the final list contains exactly one entry with that
identity. -/
theorem podcast_dedup_total :
    (∀ chunks : List (List Podcast),
      (podcastFinalList chunks).length ≤ PODCAST_DEFAULT_LIMIT) ∧
    (∀ (chunks : List (List Podcast)) (i : PodcastId),
      (podcastFinalList chunks).countP (fun q => decide (podcastIdOf q = i)) ≤ 1) ∧
    (podcastFinalList
        [[examplePod 42 "Calm Show" "Alice", examplePod 1 "Other" "Bob"],
          [examplePod 42 "Calm Show" "Alice", examplePod 2 "Third" "Eve"]]).countP
      (fun q => decide (podcastIdOf q = PodcastId.byCollection 42)) = 1 := by
  refine ⟨?_, ?_, by decide⟩
  · intro chunks
    exact dedupLoop_length _ [] [] (by decide)
  · intro chunks i
    exact dedupLoop_countP i _ [] [] (by simp) (fun _ => by simp)

/-- C7. Every entry of the final podcast list has a truthy title and a
truthy trackViewUrl (entries lacking either never appear), and in
particular the concrete entry with collectionId 7 and a null title is
excluded even though its identity is unique. -/
theorem podcast_usability_filter :
    (∀ (chunks : List (List Podcast)) (x : Podcast), x ∈ podcastFinalList chunks →
      strTruthy x.title = true ∧ strTruthy x.trackViewUrl = true) ∧
    examplePodNoTitle ∉ podcastFinalList
      [[examplePodNoTitle, examplePod 1 "Other" "Bob"]] := by
  refine ⟨?_, by decide⟩
  intro chunks x hx
  have h := dedupLoop_mem_usable _ [] [] (by simp) x hx
  simp only [podcastUsable, Bool.and_eq_true] at h
  exact h

theorem podcast_usability_filter_witness :
    strTruthy (examplePod 1 "Other" "Bob").title = true ∧
    strTruthy (examplePod 1 "Other" "Bob").trackViewUrl = true :=
  podcast_usability_filter.1 [[examplePod 1 "Other" "Bob"]]
    (examplePod 1 "Other" "Bob") (by decide)

/-- C10. Because the dedup loop records an entry's identity in `seen`
before the usability filter runs, an unusable entry that is the first
of its identity consumes that identity: any later usable entry with the
same identity is excluded from the final list. -/
theorem dedup_seen_before_filter (pre mid post : List Podcast) (p q : Podcast)
    (hpu : podcastUsable p = false) (_hqu : podcastUsable q = true)
    (hid : podcastIdOf q = podcastIdOf p)
    (hpre : ∀ r ∈ pre, podcastIdOf r ≠ podcastIdOf p) :
    q ∉ dedupLoop (pre ++ p :: (mid ++ q :: post)) [] [] := by
  intro hmem
  exact dedupLoop_unusable_first p (mid ++ q :: post) hpu pre [] []
    hpre (by simp) q hmem hid

theorem dedup_seen_before_filter_witness :
    examplePod 42 "Calm Show" "Alice" ∉
      dedupLoop ([examplePod 1 "Other" "Bob"] ++ (⟨some 42, none, some "Alice",
        none, some "https://podcasts.apple.com/show", none⟩ : Podcast) ::
        ([] ++ examplePod 42 "Calm Show" "Alice" :: [])) [] [] :=
  dedup_seen_before_filter [examplePod 1 "Other" "Bob"] [] []
    ⟨some 42, none, some "Alice", none, some "https://podcasts.apple.com/show", none⟩
    (examplePod 42 "Calm Show" "Alice") (by decide) (by decide) (by decide) (by decide)

end MoodBackend
